import Mathlib

/-!
Verification of the device inventory reconciliation engine of
generic-device-plugin, shallowly embedded from src/deviceplugin/generic.go.

The embedding models:
* the SHA-1 digest and hex encoding used for device identities
  (crypto/sha1 and fmt's percent-x verb, modelled bit-for-bit over byte lists);
* discover (generic.go lines 93-131): glob resolution, per-group length
  computation, instance construction;
* refreshDevices (lines 136-170): table rebuild and change detection;
* Allocate (lines 178-207): validation and path-binding construction;
* ListAndWatch (lines 215-238): the watch loop, as a function of a list of
  per-tick filesystem states and per-push stream-send results;
* the lock discipline of the three operations, as action traces.

Machine integers do not overflow in the translated code paths (lengths and
counters are unbounded here as in Go for realistic inputs); 32-bit overflow
inside SHA-1 is modelled with explicit modulus.
-/

set_option maxRecDepth 1000000

/-! ## Definitions -/

/-- Left-rotation of a 32-bit word represented as a Nat below 2 to the 32. -/
def rotl32 (x n : Nat) : Nat := ((x <<< n) + (x >>> (32 - n))) % 2 ^ 32

/-- Big-endian decomposition of a 64-byte block into sixteen 32-bit words. -/
def wordsOf (block : List Nat) : List Nat :=
  (List.range 16).map (fun i =>
    ((block.getD (4 * i) 0) <<< 24) + ((block.getD (4 * i + 1) 0) <<< 16) +
    ((block.getD (4 * i + 2) 0) <<< 8) + block.getD (4 * i + 3) 0)

/-- Message-schedule expansion, keeping the schedule reversed (most recent
word first) so the four taps are the elements at positions 2, 7, 13, 15. -/
def expandRev (ws : List Nat) : Nat → List Nat
  | 0 => ws
  | n + 1 =>
    expandRev (rotl32 (ws.getD 2 0 ^^^ ws.getD 7 0 ^^^ ws.getD 13 0 ^^^ ws.getD 15 0) 1 :: ws) n

/-- The 80-entry SHA-1 message schedule of one block. -/
def expandWords (w16 : List Nat) : List Nat := (expandRev w16.reverse 64).reverse

/-- Round function and round constant of SHA-1, by round index. -/
def shaF (t b c d : Nat) : Nat × Nat :=
  if t < 20 then ((b &&& c) ||| ((b ^^^ 0xFFFFFFFF) &&& d), 0x5A827999)
  else if t < 40 then (b ^^^ c ^^^ d, 0x6ED9EBA1)
  else if t < 60 then ((b &&& c) ||| (b &&& d) ||| (c &&& d), 0x8F1BBCDC)
  else (b ^^^ c ^^^ d, 0xCA62C1D6)

/-- One SHA-1 round: the accumulator carries the round index and the five
working registers. -/
def sha1Round (acc : Nat × Nat × Nat × Nat × Nat × Nat) (w : Nat) :
    Nat × Nat × Nat × Nat × Nat × Nat :=
  match acc with
  | (t, a, b, c, d, e) =>
    match shaF t b c d with
    | (f, k) => (t + 1, (rotl32 a 5 + f + e + k + w) % 2 ^ 32, a, rotl32 b 30, c, d)

/-- The five SHA-1 chaining registers. -/
structure SHAState where
  h0 : Nat
  h1 : Nat
  h2 : Nat
  h3 : Nat
  h4 : Nat

/-- Compression of one 64-byte block into the chaining state. -/
def processBlock (s : SHAState) (block : List Nat) : SHAState :=
  match (expandWords (wordsOf block)).foldl sha1Round (0, s.h0, s.h1, s.h2, s.h3, s.h4) with
  | (_, a, b, c, d, e) =>
    ⟨(s.h0 + a) % 2 ^ 32, (s.h1 + b) % 2 ^ 32, (s.h2 + c) % 2 ^ 32,
     (s.h3 + d) % 2 ^ 32, (s.h4 + e) % 2 ^ 32⟩

/-- Consume a padded message 64 bytes at a time, buffering bytes until a
block is full; structural on the remaining byte list. -/
def sha1Blocks (s : SHAState) (buf : List Nat) : List Nat → SHAState
  | [] => s
  | b :: rest =>
    if buf.length == 63 then sha1Blocks (processBlock s (buf ++ [b])) [] rest
    else sha1Blocks s (buf ++ [b]) rest

/-- Big-endian bytes of a 64-bit length field. -/
def be64 (n : Nat) : List Nat :=
  [(n >>> 56) % 256, (n >>> 48) % 256, (n >>> 40) % 256, (n >>> 32) % 256,
   (n >>> 24) % 256, (n >>> 16) % 256, (n >>> 8) % 256, n % 256]

/-- Big-endian bytes of a 32-bit word. -/
def be32 (n : Nat) : List Nat :=
  [(n >>> 24) % 256, (n >>> 16) % 256, (n >>> 8) % 256, n % 256]

/-- Merkle-Damgard padding of SHA-1: a 0x80 byte, zeros to 56 mod 64, and the
bit length as a big-endian 64-bit integer. -/
def sha1pad (msg : List Nat) : List Nat :=
  msg ++ 0x80 :: List.replicate ((64 - ((msg.length + 9) % 64)) % 64) 0 ++ be64 (msg.length * 8)

/-- SHA-1 digest: 20 bytes from a byte-list message. -/
def sha1 (msg : List Nat) : List Nat :=
  match sha1Blocks ⟨0x67452301, 0xEFCDAB89, 0x98BADCFE, 0x10325476, 0xC3D2E1F0⟩ [] (sha1pad msg) with
  | ⟨a, b, c, d, e⟩ => be32 a ++ be32 b ++ be32 c ++ be32 d ++ be32 e

/-- Lowercase hex digit, as produced by fmt's percent-x verb. -/
def hexChar (n : Nat) : Char := if n < 10 then Char.ofNat (48 + n) else Char.ofNat (87 + n)

/-- Lowercase hex encoding of a byte list. -/
def hexStr (bs : List Nat) : String :=
  String.mk (bs.foldr (fun b acc => hexChar (b / 16) :: hexChar (b % 16) :: acc) [])

/-- UTF-8 encoding of one character; Go strings are UTF-8 byte sequences. -/
def utf8Bytes (c : Char) : List Nat :=
  if c.toNat < 0x80 then [c.toNat]
  else if c.toNat < 0x800 then [0xC0 ||| (c.toNat >>> 6), 0x80 ||| (c.toNat &&& 0x3F)]
  else if c.toNat < 0x10000 then
    [0xE0 ||| (c.toNat >>> 12), 0x80 ||| ((c.toNat >>> 6) &&& 0x3F), 0x80 ||| (c.toNat &&& 0x3F)]
  else
    [0xF0 ||| (c.toNat >>> 18), 0x80 ||| ((c.toNat >>> 12) &&& 0x3F),
     0x80 ||| ((c.toNat >>> 6) &&& 0x3F), 0x80 ||| (c.toNat &&& 0x3F)]

/-- The bytes of a Go string. -/
def strBytes (s : String) : List Nat := s.data.foldr (fun c acc => utf8Bytes c ++ acc) []

/-- Decimal ASCII bytes of a natural number, as strconv.FormatUint base 10. -/
def decBytes (j : Nat) : List Nat := (Nat.toDigits 10 j).map Char.toNat

/-! ## Data model of src/deviceplugin/generic.go -/

deriving instance DecidableEq for Except

/-- Runtime failures of the Go code that are reachable in discover: a
malformed glob pattern (filepath.ErrBadPattern) and an out-of-range slice
index (a Go panic at paths-sub-k-sub-i, generic.go line 122/123). -/
inductive GoError
  | badPattern
  | indexOutOfRange
deriving DecidableEq

/-- A filesystem state, abstracted as the behaviour of filepath.Glob: each
pattern either errors (malformed) or yields its list of matching paths. -/
def GlobFn := String → Except GoError (List String)

/-- The v1beta1.Healthy constant of the kubelet device-plugin API. -/
def Healthy : String := "Healthy"

/-- The v1beta1.Unhealthy constant of the kubelet device-plugin API. -/
def Unhealthy : String := "Unhealthy"

/-- The device struct of generic.go (lines 47-50): the embedded
v1beta1.Device contributes ID and Health; paths is the plugin-private list
of resolved paths. -/
structure Device where
  ID : String
  Health : String
  paths : List String
deriving DecidableEq

/-- DeviceSpec of generic.go (lines 39-43). -/
structure DeviceSpec where
  Resource : String
  Groups : List (List String)
  Count : Nat
deriving DecidableEq

/-- Left-to-right effectful map over Except, mirroring a Go loop that
returns on the first error. -/
def exMap (f : α → Except ε β) : List α → Except ε (List β)
  | [] => Except.ok []
  | x :: xs =>
    match f x with
    | Except.error e => Except.error e
    | Except.ok y =>
      match exMap f xs with
      | Except.error e => Except.error e
      | Except.ok ys => Except.ok (y :: ys)

/-- Concatenation of the images of a list, in order. -/
def catMap (f : α → List β) : List α → List β
  | [] => []
  | x :: xs => f x ++ catMap f xs

/-- Lexicographic strict order on byte lists, as Go compares strings. -/
def bytesLt : List Nat → List Nat → Bool
  | [], [] => false
  | [], _ :: _ => true
  | _ :: _, [] => false
  | a :: as, b :: bs => if a < b then true else if b < a then false else bytesLt as bs

/-- Go's byte-wise string comparison. -/
def strLt (s t : String) : Bool := bytesLt (strBytes s) (strBytes t)

/-- Insert a string into an ascending list. -/
def insertSorted (s : String) : List String → List String
  | [] => [s]
  | t :: ts => if strLt t s then t :: insertSorted s ts else s :: t :: ts

/-- Ascending sort of the glob matches, as sort.Strings (generic.go 104). -/
def sortStrings (l : List String) : List String := l.foldr insertSorted []

/-- The first inner loop of discover (generic.go 99-110): glob every pattern
of a group, abort on the first error, sort each match list. -/
def resolveGroup (glob : GlobFn) (group : List String) : Except GoError (List (List String)) :=
  exMap (fun pat =>
    match glob pat with
    | Except.error e => Except.error e
    | Except.ok ms => Except.ok (sortStrings ms)) group

/-- The length computation of discover (generic.go 97, 106-109): length
starts at zero and is replaced whenever it is zero or the current match
count is smaller. This is translated verbatim, including the behaviour on a
zero match count followed by a larger one. -/
def groupLength (paths : List (List String)) : Nat :=
  paths.foldl (fun len ms => if len == 0 || ms.length < len then ms.length else len) 0

/-- The identifier of one device instance (generic.go 113-125): a SHA-1
digest seeded with the decimal ordinal and extended with each resolved path
in pattern order, hex encoded by the percent-x verb. -/
def instanceID (ps : List String) (j : Nat) : String :=
  hexStr (sha1 (ps.foldl (fun buf p => buf ++ strBytes p) (decBytes j)))

/-- Go's indexing of a match list at the positional index i (generic.go
122-123): the path when i is in range, a panic otherwise. -/
def pathAt (i : Nat) (ms : List String) : Except GoError String :=
  match ms.get? i with
  | some p => Except.ok p
  | none => Except.error GoError.indexOutOfRange

/-- Construction of one device instance (generic.go 113-126): read the path
at positional index i from every pattern's match list (a Go panic if any
list is too short), then assemble ID, health and paths. -/
def mkInstance (paths : List (List String)) (i j : Nat) : Except GoError Device :=
  match exMap (pathAt i) paths with
  | Except.error e => Except.error e
  | Except.ok ps => Except.ok ⟨instanceID ps j, Healthy, ps⟩

/-- The two instance-construction loops of discover (generic.go 111-128):
positional index i below the computed group length, ordinal j below Count. -/
def groupDevices (count : Nat) (paths : List (List String)) : Except GoError (List Device) :=
  match exMap (fun i => exMap (fun j => mkInstance paths i j) (List.range count))
      (List.range (groupLength paths)) with
  | Except.error e => Except.error e
  | Except.ok dss => Except.ok (catMap id dss)

/-- The body of discover's outer loop (generic.go 95-129) for one group:
resolve the patterns, then build the instances. -/
def groupDiscover (ds : DeviceSpec) (glob : GlobFn) (group : List String) :
    Except GoError (List Device) :=
  match resolveGroup glob group with
  | Except.error e => Except.error e
  | Except.ok paths => groupDevices ds.Count paths

/-- discover (generic.go 93-131): process every group in order, abort on the
first error, concatenate the instances of all groups. -/
def discover (ds : DeviceSpec) (glob : GlobFn) : Except GoError (List Device) :=
  match exMap (groupDiscover ds glob) ds.Groups with
  | Except.error e => Except.error e
  | Except.ok dss => Except.ok (catMap id dss)

/-- Map insertion with Go map semantics: replace an existing binding for the
key, otherwise append. -/
def tinsert (t : List (String × Device)) (k : String) (d : Device) : List (String × Device) :=
  if (t.lookup k).isSome then t.map (fun kv => if kv.1 == k then (k, d) else kv)
  else t ++ [(k, d)]

/-- The mutable fields of GenericPlugin (generic.go 55-64): the device
table, the device gauge and the allocations counter. -/
structure PluginState where
  devices : List (String × Device)
  gauge : Nat
  allocations : Nat
deriving DecidableEq

/-- The state made by NewGenericPlugin (generic.go 72-84): empty table,
zeroed metrics. -/
def initialState : PluginState := ⟨[], 0, 0⟩

/-- refreshDevices (generic.go 136-170), translated verbatim: on a discover
error the state is returned untouched; otherwise the table is rebuilt from
the discovered list, and the change flag is computed exactly as in the
source — the local equal starts as the zero value false (line 150) and the
loop at 153-158 can only ever set it to false again. -/
def refreshDevices (ds : DeviceSpec) (glob : GlobFn) (st : PluginState) :
    Except GoError Bool × PluginState :=
  match discover ds glob with
  | Except.error e => (Except.error e, st)
  | Except.ok devs =>
    let old := st.devices
    let newTbl := devs.foldl (fun t d => tinsert t d.ID d) []
    let equal := devs.foldl (fun eq d => if (old.lookup d.ID).isSome then eq else false) false
    let st2 : PluginState := ⟨newTbl, devs.length, st.allocations⟩
    if equal = false then (Except.ok false, st2)
    else if old.any (fun kv => (newTbl.lookup kv.1).isNone) then (Except.ok false, st2)
    else (Except.ok true, st2)

/-- A v1beta1.DeviceSpec binding returned by Allocate (generic.go 196-200). -/
structure Binding where
  HostPath : String
  ContainerPath : String
  Permissions : String
deriving DecidableEq

/-- The two error returns of Allocate (generic.go 190 and 193), carrying the
offending identifier as the descriptive Go errors do. -/
inductive AllocErr
  | notExist (id : String)
  | notHealthy (id : String)
deriving DecidableEq

/-- The inner loop of Allocate for one container request (generic.go
187-202): look up every requested identifier, fail on an unknown or
unhealthy one, else append one binding per resolved path with host path and
container path equal to the path and permissions mrw. -/
def containerBindings (tbl : List (String × Device)) : List String → Except AllocErr (List Binding)
  | [] => Except.ok []
  | id :: ids =>
    match tbl.lookup id with
    | none => Except.error (AllocErr.notExist id)
    | some dev =>
      if dev.Health != Healthy then Except.error (AllocErr.notHealthy id)
      else
        match containerBindings tbl ids with
        | Except.error e => Except.error e
        | Except.ok rest => Except.ok (dev.paths.map (fun p => ⟨p, p, ("mrw")⟩) ++ rest)

/-- Allocate (generic.go 178-207): process the container requests in order
under the lock; any failure returns the error with no response and leaves
the state untouched; on success the allocations counter grows by the number
of container responses. -/
def Allocate (st : PluginState) (reqs : List (List String)) :
    Except AllocErr (List (List Binding)) × PluginState :=
  match exMap (containerBindings st.devices) reqs with
  | Except.error e => (Except.error e, st)
  | Except.ok res => (Except.ok res, ⟨st.devices, st.gauge, st.allocations + res.length⟩)

/-- Fixture for C1: one group with one pattern that always matches the same
single path, count one — a filesystem that never changes. -/
def dsC1 : DeviceSpec := ⟨("tty"), [[("/dev/ttyA*")]], 1⟩

/-- The constant filesystem for the C1 fixture. -/
def globC1 : GlobFn := fun p =>
  if p = ("/dev/ttyA*") then Except.ok [("/dev/ttyA0")] else Except.ok []

/-- Fixture for C2: a group whose first pattern matches nothing and whose
second matches three paths. -/
def dsC2 : DeviceSpec := ⟨("grp"), [[("/dev/none*"), ("/dev/b*")]], 1⟩

/-- Filesystem for the C2 fixture. -/
def globC2 : GlobFn := fun p =>
  if p = ("/dev/none*") then Except.ok []
  else Except.ok [("/dev/b0"), ("/dev/b1"), ("/dev/b2")]

/-- Fixture for C3: match counts zero then one. -/
def dsC3 : DeviceSpec := ⟨("av"), [[("/dev/video9*"), ("/dev/audio*")]], 2⟩

/-- Filesystem for the C3 fixture. -/
def globC3 : GlobFn := fun p =>
  if p = ("/dev/video9*") then Except.ok [] else Except.ok [("/dev/audio0")]

/-- The two ways the watch loop terminates (generic.go 218, 229, 235): a
refresh error or a stream-send error, surfaced to the caller. -/
inductive LWErr
  | refreshErr (e : GoError)
  | sendErr
deriving DecidableEq

/-- The payload of one stream push (generic.go 224-227): the full current
table as identifier and health pairs — resolved paths are not sent. -/
def pushContent (tbl : List (String × Device)) : List (String × String) :=
  tbl.map (fun kv => (kv.2.ID, kv.2.Health))

/-- The infinite for-loop of ListAndWatch (generic.go 222-237), run for as
many ticks as there are filesystem states in globs. The flag ok is the
unchanged result of the previous refresh; sends gives the outcome of the
k-th stream send. Each iteration pushes the table exactly when ok is false,
returns on a send failure, then refreshes against the next filesystem state
and returns on a refresh error. The result is the list of pushed payloads
and the terminating error, if any. -/
def lwLoop (ds : DeviceSpec) (sends : Nat → Bool) (globs : List GlobFn) (ok : Bool) (n : Nat)
    (st : PluginState) : List (List (String × String)) × Option LWErr :=
  let pushed : List (List (String × String)) := if ok then [] else [pushContent st.devices]
  let n' : Nat := if ok then n else n + 1
  if (!ok) && !(sends n) then (pushed, some LWErr.sendErr)
  else
    match globs with
    | [] => (pushed, none)
    | g :: gs =>
      match refreshDevices ds g st with
      | (Except.error e, _) => (pushed, some (LWErr.refreshErr e))
      | (Except.ok b, st') =>
        let pr := lwLoop ds sends gs b n' st'
        (pushed ++ pr.1, pr.2)

/-- ListAndWatch (generic.go 215-238): one immediate refresh whose boolean
result is discarded (line 217), error out on failure, then enter the loop
with ok false so the first iteration always pushes. -/
def listAndWatch (ds : DeviceSpec) (sends : Nat → Bool) (g0 : GlobFn) (globs : List GlobFn)
    (st : PluginState) : List (List (String × String)) × Option LWErr :=
  match refreshDevices ds g0 st with
  | (Except.error e, _) => ([], some (LWErr.refreshErr e))
  | (Except.ok _, st1) => lwLoop ds sends globs false 0 st1

/-- The per-tick reconciliation results: the sequence of refresh outcomes
and post-refresh states over successive filesystem states, cut short at the
first refresh error. -/
def refreshScan (ds : DeviceSpec) : List GlobFn → PluginState →
    List (Except GoError Bool × PluginState)
  | [], _ => []
  | g :: gs, st =>
    match refreshDevices ds g st with
    | (Except.error e, st') => [(Except.error e, st')]
    | (Except.ok b, st') => (Except.ok b, st') :: refreshScan ds gs st'

/-- Modelled from the spec's words for the Watch Loop contract: walk the
reconciliation results in order; a tick whose result is unchanged pushes
nothing; a tick with a change pushes the full post-refresh table, and a
failed send or a refresh error terminates the stream with that error. -/
def specPushes (sends : Nat → Bool) : List (Except GoError Bool × PluginState) → Nat →
    List (List (String × String)) × Option LWErr
  | [], _ => ([], none)
  | (Except.error e, _) :: _, _ => ([], some (LWErr.refreshErr e))
  | (Except.ok true, _) :: rest, n => specPushes sends rest n
  | (Except.ok false, st) :: rest, n =>
    if sends n then
      (pushContent st.devices :: (specPushes sends rest (n + 1)).1,
       (specPushes sends rest (n + 1)).2)
    else ([pushContent st.devices], some LWErr.sendErr)

/-- Modelled from the spec's words for the whole watch contract: an initial
reconciliation whose failure is surfaced with no push, else a first push of
the full table, then pushes exactly at the changed ticks of the
reconciliation sequence, stopping at the first refresh or send error. -/
def specListAndWatch (ds : DeviceSpec) (sends : Nat → Bool) (g0 : GlobFn) (globs : List GlobFn)
    (st : PluginState) : List (List (String × String)) × Option LWErr :=
  match refreshDevices ds g0 st with
  | (Except.error e, _) => ([], some (LWErr.refreshErr e))
  | (Except.ok _, st1) =>
    if sends 0 then
      (pushContent st1.devices :: (specPushes sends (refreshScan ds globs st1) 1).1,
       (specPushes sends (refreshScan ds globs st1) 1).2)
    else ([pushContent st1.devices], some LWErr.sendErr)

/-- The atomic steps relevant to the mutual-exclusion argument: mutex
operations, accesses to the shared device table, filesystem globbing and
stream sends. -/
inductive LockStep
  | lockAcquire
  | lockRelease
  | tableRead
  | tableWrite
  | globCall
  | streamSend
deriving DecidableEq

/-- The step sequence of refreshDevices (generic.go 136-170): discovery
globs outside the lock (137), mu.Lock (144), the snapshot read of the old
table (147) and membership probes (155, 164-167), the wholesale rebuild
writes (148, 154), and the deferred mu.Unlock (145). -/
def refreshDevicesActions : List LockStep :=
  [LockStep.globCall, LockStep.lockAcquire, LockStep.tableRead, LockStep.tableWrite,
   LockStep.lockRelease]

/-- The step sequence of Allocate (generic.go 178-207): mu.Lock (179), the
table lookups for every requested identifier (188), and the deferred
mu.Unlock (180). -/
def allocateActions : List LockStep :=
  [LockStep.lockAcquire, LockStep.tableRead, LockStep.lockRelease]

/-- The step sequence of one pushing iteration of the watch loop
(generic.go 223-236): the loop iterates gp.devices to build the response
(225-227) without acquiring gp.mu, sends it (228), then calls
refreshDevices (233). -/
def listAndWatchIterActions : List LockStep :=
  [LockStep.tableRead, LockStep.streamSend] ++ refreshDevicesActions

/-- Checks that every access to the shared table in a step sequence happens
while the lock is held, tracking the lock depth. -/
def accessesLocked : List LockStep → Nat → Bool
  | [], _ => true
  | LockStep.lockAcquire :: rest, d => accessesLocked rest (d + 1)
  | LockStep.lockRelease :: rest, d => accessesLocked rest (d - 1)
  | LockStep.tableRead :: rest, d => decide (0 < d) && accessesLocked rest d
  | LockStep.tableWrite :: rest, d => decide (0 < d) && accessesLocked rest d
  | _ :: rest, d => accessesLocked rest d

/-- A device used in allocation fixtures, keyed as A in the table. -/
def devW4 : Device := ⟨("A"), Healthy, [("/dev/a")]⟩

/-- Allocation fixture state: a table holding only identifier A. -/
def stW4 : PluginState := ⟨[(("A"), devW4)], 1, 0⟩

/-- A filesystem on which every pattern is malformed, as filepath.Glob
reports for an unterminated character class. -/
def globBad : GlobFn := fun _ => Except.error GoError.badPattern

/-- Device specification whose only pattern is the malformed glob. -/
def dsW5 : DeviceSpec := ⟨("r5"), [[("[")]], 1⟩

/-- A pre-existing device for the C5 witness table. -/
def devW5 : Device := ⟨("oldid"), Healthy, [("/dev/old")]⟩

/-- A non-empty prior state for the C5 witness. -/
def stW5 : PluginState := ⟨[(("oldid"), devW5)], 1, 3⟩

/-- A two-path device for the binding-fidelity witness. -/
def devW6 : Device := ⟨("id6"), Healthy, [("p1"), ("p2")]⟩

/-- Binding-fidelity fixture state. -/
def stW6 : PluginState := ⟨[(("id6"), devW6)], 1, 0⟩

/-- Identifier fixture: one group, one pattern, count two. -/
def dsW7 : DeviceSpec := ⟨("serial"), [[("/dev/w*")]], 2⟩

/-- Filesystem for the identifier fixture: the pattern matches one path. -/
def globW7 : GlobFn := fun p =>
  if p = ("/dev/w*") then Except.ok [("/dev/w0")] else Except.ok []

/-- The two devices discover produces on the identifier fixture: ordinals
zero and one hashed over the same resolved path. -/
def devsW7 : List Device :=
  [⟨("6f602f0582ba8faa605df805329c49f010217111"), Healthy, [("/dev/w0")]⟩,
   ⟨("8a2aa10e25aa14bf1f7f2afd6833a728220411d8"), Healthy, [("/dev/w0")]⟩]

/-- The validity check Allocate performs per requested identifier
(generic.go 188-194): present in the table and healthy. -/
def validId (tbl : List (String × Device)) (id : String) : Bool :=
  match tbl.lookup id with
  | some d => d.Health == Healthy
  | none => false

/-- The bindings a single valid identifier contributes (generic.go
195-201): one per resolved path, host path and container path equal to the
path, permissions mrw. Unknown identifiers contribute nothing; this arm is
unreachable on a successful call. -/
def bindingsOf (tbl : List (String × Device)) (id : String) : List Binding :=
  match tbl.lookup id with
  | some d => d.paths.map (fun p => ⟨p, p, ("mrw")⟩)
  | none => []

/-- States reachable from construction by any interleaving of refreshes
(over arbitrary filesystem states) and allocations (over arbitrary
requests). -/
inductive Reachable (ds : DeviceSpec) : PluginState → Prop
  | init : Reachable ds initialState
  | refresh (glob : GlobFn) (st : PluginState) :
      Reachable ds st → Reachable ds (refreshDevices ds glob st).2
  | alloc (reqs : List (List String)) (st : PluginState) :
      Reachable ds st → Reachable ds (Allocate st reqs).2

/-- Identifier fixture for the health invariant witness. -/
def dsW8 : DeviceSpec := ⟨("w8"), [[("/dev/x*")]], 1⟩

/-- Filesystem for the health invariant witness. -/
def globW8 : GlobFn := fun p =>
  if p = ("/dev/x*") then Except.ok [("/dev/x0")] else Except.ok []

/-! ## Theorems -/

/-- SHA-1 matches the FIPS 180 test vector for the string abc. -/
theorem sha1_vector_abc :
    hexStr (sha1 (strBytes ("abc"))) = ("a9993e364706816aba3e25717850c26c9cd0d89d") := by decide

/-- SHA-1 matches the FIPS 180 test vector for the empty string. -/
theorem sha1_vector_empty :
    hexStr (sha1 (strBytes (""))) = ("da39a3ee5e6b4b0d3255bfef95601890afd80709") := by decide

/-- C1: refreshDevices cannot report an unchanged inventory. Two successive
refreshes over an identical filesystem produce identical identifier sets,
yet the second refresh still returns false, because the local equal in
generic.go line 150 is initialised to false and never set to true — the
function's own doc comment (lines 133-135) promises true here. -/
theorem refresh_unchanged_code_bug :
    ((refreshDevices dsC1 globC1 (refreshDevices dsC1 globC1 initialState).2).2.devices.map
        Prod.fst =
      (refreshDevices dsC1 globC1 initialState).2.devices.map Prod.fst) ∧
    (refreshDevices dsC1 globC1 (refreshDevices dsC1 globC1 initialState).2).1 =
      Except.ok false := ⟨rfl, rfl⟩

/-- Helper for the general form of the C1 bug: a fold whose step function
only ever keeps or clears the flag stays false when it starts false. -/
theorem foldl_false_flag (c : Device → Bool) :
    ∀ devs : List Device,
      devs.foldl (fun eq d => if c d then eq else false) false = false := by
  intro devs
  induction devs with
  | nil => rfl
  | cons d ds ih =>
    simp only [List.foldl_cons]
    cases hc : c d
    · rw [if_neg Bool.false_ne_true]
      exact ih
    · rw [if_pos rfl]
      exact ih

/-- General form of the C1 bug: every successful refresh reports a change,
whatever the filesystem and previous table. -/
theorem refreshDevices_never_unchanged (ds : DeviceSpec) (glob : GlobFn) (st : PluginState)
    (b : Bool) (st' : PluginState) (h : refreshDevices ds glob st = (Except.ok b, st')) :
    b = false := by
  rcases hd : discover ds glob with e | devs
  · simp [refreshDevices, hd] at h
  · simp only [refreshDevices, hd, foldl_false_flag] at h
    simp at h
    exact h.1

/-- C2: with pattern match counts zero and three the minimum is zero, so the
claim requires zero device instances; the code instead computes a group
length of three (the zero result resets the running length at generic.go
line 107) and then crashes reading index zero of the empty match list —
contradicting the comment at line 106 that the shortest length is kept. -/
theorem discover_truncation_code_bug :
    groupLength [[], [("/dev/b0"), ("/dev/b1"), ("/dev/b2")]] = 3 ∧
    discover dsC2 globC2 = Except.error GoError.indexOutOfRange := ⟨rfl, rfl⟩

/-- C3: discover is not total. With match counts zero and one the computed
loop bound is one, which exceeds the zero match count of the first pattern,
and the access paths-sub-zero-sub-zero at generic.go line 122 is out of
range — in Go, an index-out-of-range panic. -/
theorem discover_index_out_of_range :
    discover dsC3 globC3 = Except.error GoError.indexOutOfRange ∧
    groupLength [[], [("/dev/audio0")]] = 1 := ⟨rfl, rfl⟩

/-- Members of a successful exMap result come from members of the input. -/
theorem exMap_ok_mem {f : α → Except ε β} :
    ∀ {xs : List α} {ys : List β}, exMap f xs = Except.ok ys →
      ∀ y ∈ ys, ∃ x ∈ xs, f x = Except.ok y := by
  intro xs
  induction xs with
  | nil =>
    intro ys h y hy
    simp only [exMap, Except.ok.injEq] at h
    subst h
    exact absurd hy (List.not_mem_nil y)
  | cons x xs ih =>
    intro ys h y hy
    simp only [exMap] at h
    rcases hfx : f x with e | y0 <;> rw [hfx] at h
    · simp at h
    · rcases hrest : exMap f xs with e | ys0 <;> rw [hrest] at h
      · simp at h
      · simp only [Except.ok.injEq] at h
        subst h
        rcases List.mem_cons.mp hy with hy0 | hys
        · subst hy0
          exact ⟨x, List.mem_cons_self x xs, hfx⟩
        · rcases ih hrest y hys with ⟨x', hx', hfx'⟩
          exact ⟨x', List.mem_cons_of_mem x hx', hfx'⟩

/-- A successful exMap run succeeded on every input element. -/
theorem exMap_ok_forall {f : α → Except ε β} :
    ∀ {xs : List α} {ys : List β}, exMap f xs = Except.ok ys →
      ∀ x ∈ xs, ∃ y, f x = Except.ok y := by
  intro xs
  induction xs with
  | nil =>
    intro ys h x hx
    exact absurd hx (List.not_mem_nil x)
  | cons x xs ih =>
    intro ys h x' hx'
    simp only [exMap] at h
    rcases hfx : f x with e | y0 <;> rw [hfx] at h
    · simp at h
    · rcases hrest : exMap f xs with e | ys0 <;> rw [hrest] at h
      · simp at h
      · rcases List.mem_cons.mp hx' with hx0 | hxs
        · subst hx0
          exact ⟨y0, hfx⟩
        · exact ih hrest x' hxs

/-- A failed exMap run exposes the input element it failed on. -/
theorem exMap_error_mem {f : α → Except ε β} :
    ∀ {xs : List α} {e : ε}, exMap f xs = Except.error e →
      ∃ x ∈ xs, f x = Except.error e := by
  intro xs
  induction xs with
  | nil =>
    intro e h
    simp [exMap] at h
  | cons x xs ih =>
    intro e h
    simp only [exMap] at h
    rcases hfx : f x with e0 | y0 <;> rw [hfx] at h
    · simp only [Except.error.injEq] at h
      subst h
      exact ⟨x, List.mem_cons_self x xs, hfx⟩
    · rcases hrest : exMap f xs with e0 | ys0 <;> rw [hrest] at h
      · simp only [Except.error.injEq] at h
        subst h
        rcases ih hrest with ⟨x', hx', hfx'⟩
        exact ⟨x', List.mem_cons_of_mem x hx', hfx'⟩
      · simp at h

/-- When every element maps to a determined value, a successful exMap run
is the plain map. -/
theorem exMap_ok_determined {f : α → Except ε β} {g : α → β}
    (hg : ∀ x y, f x = Except.ok y → y = g x) :
    ∀ {xs : List α} {ys : List β}, exMap f xs = Except.ok ys → ys = xs.map g := by
  intro xs
  induction xs with
  | nil =>
    intro ys h
    simp only [exMap, Except.ok.injEq] at h
    subst h
    rfl
  | cons x xs ih =>
    intro ys h
    simp only [exMap] at h
    rcases hfx : f x with e | y0 <;> rw [hfx] at h
    · simp at h
    · rcases hrest : exMap f xs with e | ys0 <;> rw [hrest] at h
      · simp at h
      · simp only [Except.ok.injEq] at h
        subst h
        rw [List.map_cons, ih hrest, hg x y0 hfx]

/-- Members of a concatenation come from a member list. -/
theorem mem_catMap {f : α → List β} {y : β} :
    ∀ {xs : List α}, y ∈ catMap f xs → ∃ x ∈ xs, y ∈ f x := by
  intro xs
  induction xs with
  | nil =>
    intro h
    exact absurd h (List.not_mem_nil y)
  | cons x xs ih =>
    intro h
    rcases List.mem_append.mp h with hx | hxs
    · exact ⟨x, List.mem_cons_self x xs, hx⟩
    · rcases ih hxs with ⟨x', hx', hy'⟩
      exact ⟨x', List.mem_cons_of_mem x hx', hy'⟩

/-- Folding appends over a list equals the seed followed by the
concatenation of images — the bridge between the incremental hash writes of
generic.go 114-122 and a single digested message. -/
theorem foldl_append_bytes (ps : List String) :
    ∀ init : List Nat,
      ps.foldl (fun buf p => buf ++ strBytes p) init = init ++ catMap strBytes ps := by
  induction ps with
  | nil =>
    intro init
    simp [catMap]
  | cons p ps ih =>
    intro init
    simp only [List.foldl_cons, catMap]
    rw [ih, List.append_assoc]

/-- A successfully built instance is healthy and carries the digest of its
own paths and ordinal as identifier. -/
theorem mkInstance_ok {paths : List (List String)} {i j : Nat} {d : Device}
    (h : mkInstance paths i j = Except.ok d) :
    d.Health = Healthy ∧ d.ID = instanceID d.paths j := by
  unfold mkInstance at h
  rcases hx : exMap (pathAt i) paths with e | ps <;> rw [hx] at h
  · simp at h
  · simp only [Except.ok.injEq] at h
    subst h
    exact ⟨rfl, rfl⟩

/-- Every device a successful discover run produces is healthy and carries
the digest of its own resolved paths and an ordinal below Count. -/
theorem discover_mem {ds : DeviceSpec} {glob : GlobFn} {devs : List Device}
    (h : discover ds glob = Except.ok devs) :
    ∀ d ∈ devs, d.Health = Healthy ∧ ∃ j, j < ds.Count ∧ d.ID = instanceID d.paths j := by
  intro d hd
  unfold discover at h
  rcases hg : exMap (groupDiscover ds glob) ds.Groups with e | dss <;> rw [hg] at h
  · simp at h
  · simp only [Except.ok.injEq] at h
    subst h
    rcases mem_catMap hd with ⟨l, hl, hdl⟩
    rcases exMap_ok_mem hg l hl with ⟨group, _, hgrp⟩
    unfold groupDiscover at hgrp
    rcases hrg : resolveGroup glob group with e | paths <;> rw [hrg] at hgrp
    · simp at hgrp
    · have hgrp2 : groupDevices ds.Count paths = Except.ok l := hgrp
      unfold groupDevices at hgrp2
      rcases hgd : exMap (fun i => exMap (fun j => mkInstance paths i j)
          (List.range ds.Count)) (List.range (groupLength paths)) with e | dss2 <;>
        rw [hgd] at hgrp2
      · simp at hgrp2
      · simp only [Except.ok.injEq] at hgrp2
        subst hgrp2
        rcases mem_catMap hdl with ⟨l2, hl2, hdl2⟩
        rcases exMap_ok_mem hgd l2 hl2 with ⟨i, _, hi⟩
        rcases exMap_ok_mem hi d hdl2 with ⟨j, hj, hmk⟩
        rcases mkInstance_ok hmk with ⟨hhealth, hid⟩
        exact ⟨hhealth, j, List.mem_range.mp hj, hid⟩

/-- A successful container-request run validates every requested
identifier. -/
theorem cb_ok_valid {tbl : List (String × Device)} :
    ∀ {ids : List String} {bs : List Binding},
      containerBindings tbl ids = Except.ok bs → ∀ id ∈ ids, validId tbl id = true := by
  intro ids
  induction ids with
  | nil =>
    intro bs h id hid
    exact absurd hid (List.not_mem_nil id)
  | cons x xs ih =>
    intro bs h id hid
    simp only [containerBindings] at h
    split at h
    · exact absurd h (by simp)
    · rename_i dev hl
      split at h
      · exact absurd h (by simp)
      · rename_i hh
        split at h
        · exact absurd h (by simp)
        · rename_i rest hcb
          rcases List.mem_cons.mp hid with h0 | hmem
          · subst h0
            have hbeq : dev.Health = Healthy := by simpa using hh
            simp [validId, hl, hbeq]
          · exact ih hcb id hmem

/-- A successful container-request run returns exactly the concatenation of
each identifier's bindings, in request order. -/
theorem cb_ok_eq {tbl : List (String × Device)} :
    ∀ {ids : List String} {bs : List Binding},
      containerBindings tbl ids = Except.ok bs → bs = catMap (bindingsOf tbl) ids := by
  intro ids
  induction ids with
  | nil =>
    intro bs h
    simp only [containerBindings, Except.ok.injEq] at h
    subst h
    rfl
  | cons x xs ih =>
    intro bs h
    simp only [containerBindings] at h
    split at h
    · exact absurd h (by simp)
    · rename_i dev hl
      split at h
      · exact absurd h (by simp)
      · rename_i hh
        split at h
        · exact absurd h (by simp)
        · rename_i rest hcb
          simp only [Except.ok.injEq] at h
          subst h
          simp only [catMap]
          rw [ih hcb, bindingsOf, hl]

/-- A looked-up device of an all-healthy table is healthy. -/
theorem lookup_healthy {tbl : List (String × Device)}
    (ht : ∀ kv ∈ tbl, kv.2.Health = Healthy) :
    ∀ {id : String} {d : Device}, tbl.lookup id = some d → d.Health = Healthy := by
  induction tbl with
  | nil =>
    intro id d h
    simp [List.lookup] at h
  | cons kv t ih =>
    intro id d h
    simp only [List.lookup] at h
    rcases hbe : id == kv.1 <;> rw [hbe] at h
    · exact ih (fun kv' hkv' => ht kv' (List.mem_cons_of_mem kv hkv')) h
    · simp only [Option.some.injEq] at h
      subst h
      exact ht kv (List.mem_cons_self kv t)

/-- Container requests never fail with the unhealthy error when every table
entry is healthy. -/
theorem cb_no_unhealthy {tbl : List (String × Device)}
    (ht : ∀ kv ∈ tbl, kv.2.Health = Healthy) :
    ∀ (ids : List String) (id : String),
      containerBindings tbl ids ≠ Except.error (AllocErr.notHealthy id) := by
  intro ids
  induction ids with
  | nil =>
    intro id h
    simp [containerBindings] at h
  | cons x xs ih =>
    intro id h
    simp only [containerBindings] at h
    split at h
    · simp at h
    · rename_i dev hl
      split at h
      · rename_i hh
        have : dev.Health = Healthy := lookup_healthy ht hl
        rw [bne_iff_ne] at hh
        exact hh this
      · split at h
        · rename_i e hcb
          simp only [Except.error.injEq] at h
          subst h
          exact ih id hcb
        · simp at h

/-- C4: Allocate is atomic. If any requested identifier in any container
request group is absent from the table or not healthy, the whole call
returns an error — no response object, hence no partial bindings — and the
state, allocations counter included, is unchanged. -/
theorem allocate_atomic (st : PluginState) (reqs : List (List String))
    (h : ∃ r ∈ reqs, ∃ id ∈ r, validId st.devices id = false) :
    (∃ e, (Allocate st reqs).1 = Except.error e) ∧ (Allocate st reqs).2 = st := by
  rcases h with ⟨r, hr, id, hid, hv⟩
  rcases hex : exMap (containerBindings st.devices) reqs with e | res
  · exact ⟨⟨e, by simp [Allocate, hex]⟩, by simp [Allocate, hex]⟩
  · exfalso
    rcases exMap_ok_forall hex r hr with ⟨bs, hbs⟩
    have hval := cb_ok_valid hbs id hid
    rw [hv] at hval
    exact Bool.false_ne_true hval

/-- Witness for C4 at a concrete input: the table holds only identifier A,
the request asks for A and B, the whole call fails and the state is
untouched — no binding for A is produced. -/
theorem allocate_atomic_witness :
    (∃ e, (Allocate stW4 [[("A"), ("B")]]).1 = Except.error e) ∧
    (Allocate stW4 [[("A"), ("B")]]).2 = stW4 :=
  allocate_atomic stW4 [[("A"), ("B")]] (by decide)

/-- C5: a failed discovery aborts the refresh with the error and leaves the
whole plugin state — in particular the device table — untouched
(generic.go 137-140 returns before any mutation). -/
theorem refresh_error_leaves_table (ds : DeviceSpec) (glob : GlobFn) (st : PluginState)
    (e : GoError) (h : discover ds glob = Except.error e) :
    refreshDevices ds glob st = (Except.error e, st) := by
  simp [refreshDevices, h]

/-- Witness for C5 at a concrete input: a malformed pattern, a non-empty
prior table; the refresh surfaces the error and returns the state intact. -/
theorem refresh_error_leaves_table_witness :
    refreshDevices dsW5 globBad stW5 = (Except.error GoError.badPattern, stW5) :=
  refresh_error_leaves_table dsW5 globBad stW5 GoError.badPattern rfl

/-- C6: on success, the response lists, for each container request and each
requested device in request order, one binding per resolved path in the
device's path order, with host path equal to container path equal to the
path and the most-permissive device permission string mrw — exactly the
concatenation of bindingsOf over the request. -/
theorem allocate_binding_fidelity (st : PluginState) (reqs : List (List String))
    (res : List (List Binding)) (h : (Allocate st reqs).1 = Except.ok res) :
    res = reqs.map (fun r => catMap (bindingsOf st.devices) r) := by
  rcases hex : exMap (containerBindings st.devices) reqs with e | res0 <;>
    simp only [Allocate, hex] at h
  · exact absurd h (by simp)
  · simp only [Except.ok.injEq] at h
    subst h
    exact exMap_ok_determined (fun r bs hbs => cb_ok_eq hbs) hex

/-- Witness for C6 at a concrete input: allocating the identifier id6 whose
device resolves paths p1 and p2 yields exactly the two bindings with host
path equal to container path and permissions mrw. -/
theorem allocate_binding_fidelity_witness :
    [[Binding.mk ("p1") ("p1") ("mrw"), Binding.mk ("p2") ("p2") ("mrw")]] =
      [[("id6")]].map (fun r => catMap (bindingsOf stW6.devices) r) :=
  allocate_binding_fidelity stW6 [[("id6")]]
    [[Binding.mk ("p1") ("p1") ("mrw"), Binding.mk ("p2") ("p2") ("mrw")]] rfl

/-- Go-map insertion preserves an all-healthy table when the inserted
device is healthy. -/
theorem tinsert_healthy {t : List (String × Device)} {k : String} {d : Device}
    (ht : ∀ kv ∈ t, kv.2.Health = Healthy) (hd : d.Health = Healthy) :
    ∀ kv ∈ tinsert t k d, kv.2.Health = Healthy := by
  intro kv hkv
  unfold tinsert at hkv
  split at hkv
  · rcases List.mem_map.mp hkv with ⟨kv0, hkv0, heq⟩
    by_cases hk : kv0.1 == k
    · rw [if_pos hk] at heq
      rw [← heq]
      exact hd
    · rw [if_neg hk] at heq
      rw [← heq]
      exact ht kv0 hkv0
  · rcases List.mem_append.mp hkv with hmem | hmem
    · exact ht kv hmem
    · rcases List.mem_singleton.mp hmem with rfl
      exact hd

/-- Rebuilding a table by repeated insertion of healthy devices from a
table of healthy entries yields a table of healthy entries. -/
theorem foldl_tinsert_healthy {devs : List Device} (hd : ∀ d ∈ devs, d.Health = Healthy) :
    ∀ (t : List (String × Device)), (∀ kv ∈ t, kv.2.Health = Healthy) →
      ∀ kv ∈ devs.foldl (fun t d => tinsert t d.ID d) t, kv.2.Health = Healthy := by
  induction devs with
  | nil =>
    intro t ht kv hkv
    exact ht kv hkv
  | cons d devs ih =>
    intro t ht kv hkv
    simp only [List.foldl_cons] at hkv
    exact ih (fun d' hd' => hd d' (List.mem_cons_of_mem d hd'))
      (tinsert t d.ID d)
      (tinsert_healthy ht (hd d (List.mem_cons_self d devs))) kv hkv

/-- A successful refresh rebuilds the table from the discovered devices
(generic.go 147-158); the allocations counter is untouched. -/
theorem refreshDevices_ok_state {ds : DeviceSpec} {glob : GlobFn} {st : PluginState}
    {devs : List Device} (h : discover ds glob = Except.ok devs) :
    (refreshDevices ds glob st).2 =
      ⟨devs.foldl (fun t d => tinsert t d.ID d) [], devs.length, st.allocations⟩ := by
  simp only [refreshDevices, h]
  split
  · rfl
  · split
    · rfl
    · rfl

/-- A failed discovery aborts the refresh before any state mutation
(generic.go 137-140). -/
theorem refreshDevices_error_state {ds : DeviceSpec} {glob : GlobFn} {e : GoError}
    (hd : discover ds glob = Except.error e) (st : PluginState) :
    (refreshDevices ds glob st).2 = st := by
  simp [refreshDevices, hd]

/-- Allocate never changes the device table (generic.go never writes
gp.devices there). -/
theorem Allocate_devices_unchanged (st : PluginState) (reqs : List (List String)) :
    (Allocate st reqs).2.devices = st.devices := by
  unfold Allocate
  rcases hex : exMap (containerBindings st.devices) reqs with e | res <;> rfl

/-- C8: every device ever present in a reachable table is healthy —
discovery assigns Healthy (generic.go 117) and nothing ever degrades it —
and consequently the unhealthy-device error branch of Allocate (generic.go
192-194) is unreachable: no allocation from a reachable state can return
the not-healthy error. -/
theorem reachable_table_healthy (ds : DeviceSpec) (st : PluginState) (h : Reachable ds st) :
    (∀ kv ∈ st.devices, kv.2.Health = Healthy) ∧
    ∀ (reqs : List (List String)) (id : String),
      (Allocate st reqs).1 ≠ Except.error (AllocErr.notHealthy id) := by
  have htbl : ∀ kv ∈ st.devices, kv.2.Health = Healthy := by
    induction h with
    | init =>
      intro kv hkv
      exact absurd hkv (List.not_mem_nil kv)
    | refresh glob st' hst ih =>
      rcases hd : discover ds glob with e | devs
      · rw [refreshDevices_error_state hd]
        exact ih
      · rw [refreshDevices_ok_state hd]
        exact foldl_tinsert_healthy
          (fun d hd' => (discover_mem hd d hd').1) [] (by intro kv hkv; cases hkv)
    | alloc reqs st' hst ih =>
      rw [Allocate_devices_unchanged]
      exact ih
  refine ⟨htbl, ?_⟩
  intro reqs id hcon
  rcases hex : exMap (containerBindings st.devices) reqs with e | res <;>
    simp only [Allocate, hex] at hcon
  · simp only [Except.error.injEq] at hcon
    subst hcon
    rcases exMap_error_mem hex with ⟨r, _, hr⟩
    exact cb_no_unhealthy htbl r id hr
  · exact absurd hcon (by simp)

/-- Witness for C8 at a concrete reachable state: after one refresh from
the initial state over a one-device filesystem, every table entry is
healthy and no allocation can fail with the not-healthy error. -/
theorem reachable_table_healthy_witness :
    (∀ kv ∈ (refreshDevices dsW8 globW8 initialState).2.devices, kv.2.Health = Healthy) ∧
    ∀ (reqs : List (List String)) (id : String),
      (Allocate (refreshDevices dsW8 globW8 initialState).2 reqs).1 ≠
        Except.error (AllocErr.notHealthy id) :=
  reachable_table_healthy dsW8 (refreshDevices dsW8 globW8 initialState).2
    (Reachable.refresh globW8 initialState Reachable.init)

/-- C7: the identifier of every discovered device instance is the lowercase
hex encoding of the SHA-1 digest of the ordinal's decimal representation
followed by the resolved path strings in pattern order — the incremental
writes of generic.go 114-122 digest exactly that concatenated message — and
every device of a successful discover run carries such an identifier for an
ordinal below Count. Determinism is immediate: instanceID is a pure
function of the paths and the ordinal. -/
theorem discover_identifier_digest (ds : DeviceSpec) (glob : GlobFn) (devs : List Device)
    (h : discover ds glob = Except.ok devs) :
    (∀ (ps : List String) (j : Nat),
      instanceID ps j = hexStr (sha1 (decBytes j ++ catMap strBytes ps))) ∧
    ∀ d ∈ devs, ∃ j, j < ds.Count ∧ d.ID = instanceID d.paths j := by
  constructor
  · intro ps j
    unfold instanceID
    rw [foldl_append_bytes]
  · intro d hd
    exact (discover_mem h d hd).2

/-- Witness for C7 at a concrete input: one pattern matching one path with
count two produces two devices whose identifiers are the SHA-1 digests of
the messages zero-slash-dev-slash-w0 and one-slash-dev-slash-w0. -/
theorem discover_identifier_digest_witness :
    (∀ (ps : List String) (j : Nat),
      instanceID ps j = hexStr (sha1 (decBytes j ++ catMap strBytes ps))) ∧
    ∀ d ∈ devsW7, ∃ j, j < dsW7.Count ∧ d.ID = instanceID d.paths j :=
  discover_identifier_digest dsW7 globW7 devsW7 rfl

/-- Unfolding of the watch loop body when the tick budget is exhausted. -/
theorem lwLoop_nil (ds : DeviceSpec) (sends : Nat → Bool) (ok : Bool) (n : Nat)
    (st : PluginState) :
    lwLoop ds sends [] ok n st =
      (if ok then ([], none)
       else if sends n then ([pushContent st.devices], none)
       else ([pushContent st.devices], some LWErr.sendErr)) := by
  rcases ok
  · rcases hs : sends n <;> simp [lwLoop, hs]
  · simp [lwLoop]

/-- One unfolding of the watch loop body on a remaining tick. -/
theorem lwLoop_cons (ds : DeviceSpec) (sends : Nat → Bool) (g : GlobFn) (gs : List GlobFn)
    (ok : Bool) (n : Nat) (st : PluginState) :
    lwLoop ds sends (g :: gs) ok n st =
      (let pushed : List (List (String × String)) :=
        if ok then [] else [pushContent st.devices]
       let n' : Nat := if ok then n else n + 1
       if (!ok) && !(sends n) then (pushed, some LWErr.sendErr)
       else
         match refreshDevices ds g st with
         | (Except.error e, _) => (pushed, some (LWErr.refreshErr e))
         | (Except.ok b, st') =>
           let pr := lwLoop ds sends gs b n' st'
           (pushed ++ pr.1, pr.2)) := rfl

/-- The watch loop agrees with the spec-side push schedule: starting from a
pending push (ok false) it pushes the current table and then follows the
reconciliation results; starting clean (ok true) it follows them directly. -/
theorem lwLoop_spec (ds : DeviceSpec) (sends : Nat → Bool) :
    ∀ (globs : List GlobFn) (n : Nat) (st : PluginState),
      lwLoop ds sends globs true n st = specPushes sends (refreshScan ds globs st) n ∧
      lwLoop ds sends globs false n st =
        (if sends n then
          (pushContent st.devices :: (specPushes sends (refreshScan ds globs st) (n + 1)).1,
           (specPushes sends (refreshScan ds globs st) (n + 1)).2)
        else ([pushContent st.devices], some LWErr.sendErr)) := by
  intro globs
  induction globs with
  | nil =>
    intro n st
    refine ⟨?_, ?_⟩
    · simp [lwLoop_nil, refreshScan, specPushes]
    · rcases hs : sends n <;> simp [lwLoop_nil, refreshScan, specPushes, hs]
  | cons g gs ih =>
    intro n st
    rcases hr : refreshDevices ds g st with ⟨eb, st'⟩
    rcases eb with e | b
    · refine ⟨?_, ?_⟩
      · rw [lwLoop_cons]
        simp [hr, refreshScan, specPushes]
      · rw [lwLoop_cons]
        rcases hs : sends n <;> simp [hr, refreshScan, specPushes, hs]
    · refine ⟨?_, ?_⟩
      · rw [lwLoop_cons]
        rcases b
        · simp [hr, refreshScan, specPushes, (ih n st').2]
        · simp [hr, refreshScan, specPushes, (ih n st').1]
      · rw [lwLoop_cons]
        rcases hs : sends n
        · simp [hs]
        · rcases b
          · simp [hr, hs, refreshScan, specPushes, (ih (n + 1) st').2]
          · simp [hr, hs, refreshScan, specPushes, (ih (n + 1) st').1]

/-- C9: ListAndWatch equals the spec-side watch contract on every input:
after a failed initial reconciliation it terminates with that error and
pushes nothing; otherwise it first pushes the full table as identifier and
health pairs, then pushes the full updated table exactly on ticks whose
reconciliation returned a change, never on unchanged ticks, and any
reconciliation or send error ends the trace with that error. -/
theorem listAndWatch_push_discipline (ds : DeviceSpec) (sends : Nat → Bool) (g0 : GlobFn)
    (globs : List GlobFn) (st : PluginState) :
    listAndWatch ds sends g0 globs st = specListAndWatch ds sends g0 globs st := by
  unfold listAndWatch specListAndWatch
  rcases refreshDevices ds g0 st with ⟨eb, st1⟩
  rcases eb with e | b
  · rfl
  · exact (lwLoop_spec ds sends globs 0 st1).2

/-- C10: the lock discipline of the three operations over the shared table,
checked on their step sequences: refreshDevices keeps its whole
snapshot-compare-replace under the lock and Allocate keeps its whole
validate-then-bind under the lock, but a pushing iteration of the watch
loop reads the shared table with no lock held (generic.go 225 iterates
gp.devices outside any mu.Lock), so the claim fails on the Watch Loop. -/
theorem lock_discipline_code_bug :
    accessesLocked refreshDevicesActions 0 = true ∧
    accessesLocked allocateActions 0 = true ∧
    accessesLocked listAndWatchIterActions 0 = false := ⟨rfl, rfl, rfl⟩

